import Mathlib

/-!
Shallow embedding of the data-alchemist core: the column classifier and
value normalizer (`file-upload` component), the validation engine and
auto-fix path (`app/page.tsx`), and the CSV serializer
(`components/export-controls.tsx`).

JavaScript cell values (`any`) are modelled by the inductive `Value`
(null/undefined conflated into `vNull`; both are handled identically by
every code path the claims touch).  JavaScript numbers are modelled by
exact rationals.  Host-platform primitives that are not part of the
repository (`parseFloat`, `Number.prototype.toString`, `Date.parse`,
`JSON.parse`, `new URL`) are abstracted into a `JsPrims` environment;
string operations implemented by the repository itself (regexes, trim,
toLowerCase, includes, split) are embedded concretely.
-/

/-- Model of a JavaScript value as stored in a data cell. -/
inductive Value where
  | vNull : Value
  | vStr : String → Value
  | vNum : ℚ → Value
  | vBool : Bool → Value
deriving DecidableEq, Repr

open Value

/-- Host-platform (JavaScript engine) primitives used by the code but not
defined by it.  `parseFloat s = none` models a `NaN` result. -/
structure JsPrims where
  parseFloat : String → Option ℚ
  numToString : ℚ → String
  parsesAsDate : String → Bool
  parsesAsJson : String → Bool
  jsonParsesAsArray : String → Option Bool
  isUrl : String → Bool

/-- JavaScript truthiness of a cell value. -/
def truthy : Value → Bool
  | vNull => false
  | vStr s => s != ""
  | vNum q => decide (q ≠ 0)
  | vBool b => b

/-- JavaScript `String(v)` on a cell value. -/
def jsToStr (P : JsPrims) : Value → String
  | vNull => "null"
  | vStr s => s
  | vNum q => P.numToString q
  | vBool b => if b then "true" else "false"

/-- Whitespace characters recognised by the embedded `trim`. -/
def wsChar (c : Char) : Bool :=
  c == ' ' || c == '\t' || c == '\n' || c == '\r'

/-- `String.prototype.trim` on the character list. -/
def jsTrimChars (l : List Char) : List Char :=
  ((l.dropWhile wsChar).reverse.dropWhile wsChar).reverse

/-- JavaScript `s.trim()`. -/
def jsTrim (s : String) : String := String.mk (jsTrimChars s.data)

/-- ASCII lower-casing of one character (`toLowerCase` on the data used here). -/
def asciiLowerChar (c : Char) : Char :=
  if 'A' ≤ c ∧ c ≤ 'Z' then Char.ofNat (c.toNat + 32) else c

/-- JavaScript `s.toLowerCase()` restricted to ASCII. -/
def asciiLower (s : String) : String := String.mk (s.data.map asciiLowerChar)

/-- Substring occurrence on character lists. -/
def listContainsSub (sub : List Char) : List Char → Bool
  | [] => sub.isEmpty
  | c :: t => sub.isPrefixOf (c :: t) || listContainsSub sub t

/-- JavaScript `s.includes(sub)`. -/
def strIncludes (s sub : String) : Bool := listContainsSub sub.data s.data

/-- JavaScript `s.includes(c)` for a single character. -/
def charContains (s : String) (c : Char) : Bool := s.data.contains c

/-- JavaScript `s.startsWith(pre)`. -/
def jsStartsWith (s pre : String) : Bool := pre.data.isPrefixOf s.data

/-- JavaScript `s.endsWith(suf)`. -/
def jsEndsWith (s suf : String) : Bool := suf.data.isSuffixOf s.data

/-- JavaScript `s.split(c)` on the character list. -/
def splitOnCharAux (c : Char) : List Char → List Char → List (List Char)
  | [], acc => [acc.reverse]
  | x :: t, acc =>
    if x = c then acc.reverse :: splitOnCharAux c t [] else splitOnCharAux c t (x :: acc)

/-- JavaScript `s.split(c)` for a one-character separator. -/
def splitOnChar (c : Char) (s : String) : List String :=
  (splitOnCharAux c s.data []).map String.mk

/-- JavaScript `parts.join(sep)` for a one-character separator. -/
def joinSep (sep : Char) : List String → String
  | [] => ""
  | [s] => s
  | s :: t => s ++ String.mk [sep] ++ joinSep sep t

def isUpperAlpha (c : Char) : Bool := 'A' ≤ c && c ≤ 'Z'

def isDigitCh (c : Char) : Bool := '0' ≤ c && c ≤ '9'

def isIdChar (c : Char) : Bool :=
  isDigitCh c || isUpperAlpha c || ('a' ≤ c && c ≤ 'z') || c == '-' || c == '_'

/-- The id regex of the classifier: `^[A-Z]\d(3,)$|^[a-zA-Z0-9-_](8,)$`. -/
def idPatternTest (s : String) : Bool :=
  (match s.data with
   | c :: rest => isUpperAlpha c && rest.length ≥ 3 && rest.all isDigitCh
   | [] => false)
  || (s.data.length ≥ 8 && s.data.all isIdChar)

def noWsNoAt (l : List Char) : Bool := l.all (fun c => !wsChar c && c ≠ '@')

/-- The email regex used by classifier and validator. -/
def emailTest (s : String) : Bool :=
  match splitOnChar '@' s with
  | [a, b] => a != "" && noWsNoAt a.data && noWsNoAt b.data &&
      ((b.data.drop 1).dropLast.contains '.')
  | _ => false

/-- The literal strings recognised as booleans. -/
def boolValuesList : List String :=
  ["true", "false", "1", "0", "yes", "no", "y", "n"]

def digitsToNat (l : List Char) : Nat :=
  l.foldl (fun n c => n * 10 + (c.toNat - 48)) 0

def isHexDigit (c : Char) : Bool :=
  isDigitCh c || ('a' ≤ c && c ≤ 'f') || ('A' ≤ c && c ≤ 'F')

def hexDigitVal (c : Char) : Nat :=
  if isDigitCh c then c.toNat - 48
  else if 'a' ≤ c ∧ c ≤ 'f' then c.toNat - 87
  else c.toNat - 55

def hexToNat (l : List Char) : Nat :=
  l.foldl (fun n c => n * 16 + hexDigitVal c) 0

/-- Unsigned part of `parseInt` (decimal, or hex after a `0x` prefix). -/
def parseIntCore (l : List Char) : Option Nat :=
  match l with
  | '0' :: x :: rest =>
    if x = 'x' ∨ x = 'X' then
      let d := rest.takeWhile isHexDigit
      if d.isEmpty then none else some (hexToNat d)
    else
      some (digitsToNat (('0' :: x :: rest).takeWhile isDigitCh))
  | _ =>
    let d := l.takeWhile isDigitCh
    if d.isEmpty then none else some (digitsToNat d)

/-- JavaScript `parseInt(s)` (radix auto-detected); `none` models `NaN`. -/
def jsParseIntStr (s : String) : Option Int :=
  let l := s.data.dropWhile wsChar
  match l with
  | c :: rest =>
    if c = '-' then (parseIntCore rest).map (fun n => -(n : Int))
    else if c = '+' then (parseIntCore rest).map (fun n => (n : Int))
    else (parseIntCore l).map (fun n => (n : Int))
  | [] => none

/-- JavaScript `parseInt(value)` on a cell value. -/
def jsParseInt (P : JsPrims) (v : Value) : Option Int := jsParseIntStr (jsToStr P v)

/-- JavaScript `Math.round`. -/
def jsRound (q : ℚ) : Int := ⌊q + 1 / 2⌋

/-- A data row: string-keyed cell values.  Absent keys read as `vNull`. -/
abbrev Row := List (String × Value)

/-- The in-memory table store `Record<string, DataRow[]>`. -/
abbrev DataMap := List (String × List Row)

/-- JavaScript `row[c]` (`undefined`, i.e. `vNull`, when absent). -/
def rowGet (row : Row) (c : String) : Value :=
  ((row.find? (fun p => p.1 == c)).map Prod.snd).getD vNull

/-- JavaScript `data[t] || []`. -/
def dataGet (D : DataMap) (t : String) : List Row :=
  ((D.find? (fun p => p.1 == t)).map Prod.snd).getD []

/-- `ColumnSchema['type']` of `app/page.tsx`, also the keys of `typeScores`
in declaration order. -/
inductive ColType where
  | id | number | boolean | date | email | url | json | array | string
deriving DecidableEq, Repr

/-- The optional `validation` block of a `ColumnSchema`. -/
structure ValidationRules where
  min : Option ℚ := none
  max : Option ℚ := none
  pattern : Option String := none
  enum : Option (List String) := none
deriving DecidableEq, Repr

/-- `ColumnSchema` of `app/page.tsx` (fields the code reads). -/
structure ColumnSchema where
  name : String
  type : ColType
  required : Bool
  unique : Bool
  validation : Option ValidationRules
  aiDetected : Bool
  confidence : ℚ
  businessContext : Option String := none
deriving DecidableEq, Repr

/-- One entry of `TableSchema.relationships`. -/
structure Relationship where
  table : String
  column : String
  relType : String
  confidence : ℚ
deriving DecidableEq, Repr

/-- `TableSchema.aiClassification`. -/
structure AiClassification where
  entityType : String
  confidence : ℚ
  reasoning : String
  businessDomain : Option String := none
deriving DecidableEq, Repr

/-- `TableSchema` of `app/page.tsx` (fields the code reads). -/
structure TableSchema where
  name : String
  columns : List ColumnSchema
  primaryKey : Option String
  relationships : List Relationship
  aiClassification : AiClassification
deriving DecidableEq, Repr

/-- The in-memory schema store `Record<string, TableSchema>`. -/
abbrev SchemaMap := List (String × TableSchema)

/-- JavaScript `schemas[t]` (`none` models `undefined`). -/
def schemaGet (S : SchemaMap) (t : String) : Option TableSchema :=
  (S.find? (fun p => p.1 == t)).map Prod.snd

/-- The `typeScores` record of `detectColumnSchema`. -/
structure TypeScores where
  id : ℚ
  number : ℚ
  boolean : ℚ
  date : ℚ
  email : ℚ
  url : ℚ
  json : ℚ
  array : ℚ
  string : ℚ
deriving DecidableEq, Repr

/-- `typeScores[k]`. -/
def scoreOf (t : TypeScores) : ColType → ℚ
  | .id => t.id
  | .number => t.number
  | .boolean => t.boolean
  | .date => t.date
  | .email => t.email
  | .url => t.url
  | .json => t.json
  | .array => t.array
  | .string => t.string

/-- `Object.entries(typeScores)` in declaration order. -/
def scoreEntries (t : TypeScores) : List (ColType × ℚ) :=
  [(.id, t.id), (.number, t.number), (.boolean, t.boolean), (.date, t.date),
   (.email, t.email), (.url, t.url), (.json, t.json), (.array, t.array),
   (.string, t.string)]

/-- One step of the winner-selection reduce:
`(a, b) => score(a) > score(b) ? a : b` (ties keep `b`). -/
def bestStep (a b : ColType × ℚ) : ColType × ℚ := if a.2 > b.2 then a else b

/-- The winner-selection reduce of `detectColumnSchema`:
`entries.reduce((a, b) => score(a) > score(b) ? a : b)`.
The `[]` case is unreachable (the entry list always has nine elements). -/
def reduceBest : List (ColType × ℚ) → ColType × ℚ
  | [] => (.string, 0)
  | h :: t => t.foldl bestStep h

/-- The non-null, non-empty values of one column
(`data.map(row => row[columnName]).filter(...)`). -/
def columnValues (columnName : String) (data : List Row) : List Value :=
  (data.map (fun row => rowGet row columnName)).filter
    (fun v => decide (v ≠ vNull ∧ v ≠ vStr ""))

/-- The `arrayMatches` per-sample test. -/
def arrayLikeTest (str : String) : Bool :=
  (jsStartsWith str "[" && jsEndsWith str "]") || charContains str ','

/-- The score table computed by `detectColumnSchema` (part_002 lines 157-225).
Division by a zero sample count yields `0` in this model (JavaScript produces
`NaN`); theorems about the winner therefore assume a non-empty sample. -/
def typeScoresOf (P : JsPrims) (columnName : String) (data : List Row) : TypeScores :=
  let lowerName := asciiLower columnName
  let values := columnValues columnName data
  let samples := values.take 100
  let n : ℚ := samples.length
  let idName : ℚ :=
    if strIncludes lowerName "id" || strIncludes lowerName "key" then 50 else 0
  let idMatches : ℚ := samples.countP (fun v => idPatternTest (jsToStr P v))
  let numberMatches : ℚ := samples.countP (fun v => (P.parseFloat (jsToStr P v)).isSome)
  let boolMatches : ℚ :=
    samples.countP (fun v => boolValuesList.contains (asciiLower (jsToStr P v)))
  let dateMatches : ℚ := samples.countP (fun v => P.parsesAsDate (jsToStr P v))
  let emailMatches : ℚ := samples.countP (fun v => emailTest (jsToStr P v))
  let urlMatches : ℚ := samples.countP (fun v => P.isUrl (jsToStr P v))
  let jsonMatches : ℚ := samples.countP (fun v => P.parsesAsJson (jsToStr P v))
  let arrayMatches : ℚ := samples.countP (fun v => arrayLikeTest (jsToStr P v))
  { id := idName + idMatches / n * 30
    number := numberMatches / n * 100
    boolean := boolMatches / n * 100
    date := dateMatches / n * 100
    email := emailMatches / n * 100
    url := urlMatches / n * 100
    json := jsonMatches / n * 100
    array := arrayMatches / n * 100
    string := 0 }

/-- `detectColumnSchema` (part_002 lines 149-273). -/
def detectColumnSchema (P : JsPrims) (columnName : String) (data : List Row) : ColumnSchema :=
  let lowerName := asciiLower columnName
  let values := columnValues columnName data
  let samples := values.take 100
  let ts := typeScoresOf P columnName data
  let best := reduceBest (scoreEntries ts)
  let bestType := best.1
  let confidence := scoreOf ts bestType / 100
  let nullCount : ℚ := data.countP
    (fun row => !truthy (rowGet row columnName) || rowGet row columnName == vStr "")
  let required := decide (nullCount / (data.length : ℚ) < 1 / 10)
  let uniqueValues := values.dedup
  let uniq := decide (uniqueValues.length = values.length ∧ values.length > 1)
  let v0 : ValidationRules := {}
  let v1 :=
    if bestType = ColType.number then
      let numbers := samples.filterMap (fun v => P.parseFloat (jsToStr P v))
      if numbers.isEmpty then v0
      else { v0 with min := numbers.min?, max := numbers.max? }
    else v0
  let v2 :=
    if strIncludes lowerName "priority" ∧ bestType = ColType.number then
      { v1 with min := some 1, max := some 5 }
    else v1
  let v3 :=
    if uniqueValues.length ≤ 10 ∧ uniqueValues.length > 1 ∧ bestType = ColType.string then
      { v2 with enum := some (uniqueValues.map (jsToStr P)) }
    else v2
  let hasAny := v3.min.isSome || v3.max.isSome || v3.pattern.isSome || v3.enum.isSome
  { name := columnName
    type := if bestType = ColType.string ∧ confidence < 3 / 10 then ColType.string else bestType
    required := required
    unique := uniq
    validation := if hasAny then some v3 else none
    aiDetected := true
    confidence := confidence }

/-- The single-quote character, written by code point to satisfy lexical
restrictions of this development. -/
def squote : Char := Char.ofNat 39

/-- `stringValue.replace(single-quote-regex, double-quote)`. -/
def replaceQuotes (s : String) : String :=
  String.mk (s.data.map (fun c => if c = squote then '"' else c))

/-- The `boolMap` of `cleanValue`. -/
def boolMapLookup (s : String) : Option Bool :=
  if s = "true" then some true
  else if s = "false" then some false
  else if s = "1" then some true
  else if s = "0" then some false
  else if s = "yes" then some true
  else if s = "no" then some false
  else if s = "y" then some true
  else if s = "n" then some false
  else none

/-- `cleanValue` (part_002 lines 372-415), the value normalizer. -/
def cleanValue (P : JsPrims) (value : Value) (column : ColumnSchema) : Value :=
  if value = vNull ∨ value = vStr "" then vStr ""
  else
    let stringValue := jsTrim (jsToStr P value)
    match column.type with
    | ColType.number =>
      match P.parseFloat stringValue with
      | none => if column.required then vNum 0 else vStr ""
      | some q => vNum q
    | ColType.boolean => vBool ((boolMapLookup (asciiLower stringValue)).getD false)
    | ColType.json => if P.parsesAsJson stringValue then vStr stringValue else vStr "\x7b\x7d"
    | ColType.array =>
      match P.jsonParsesAsArray (replaceQuotes stringValue) with
      | some isArr =>
        if isArr then vStr stringValue else vStr ("[" ++ stringValue ++ "]")
      | none =>
        if charContains stringValue ',' then
          vStr ("[" ++
            joinSep ','
              ((splitOnChar ',' stringValue).map (fun s => "\"" ++ jsTrim s ++ "\"")) ++ "]")
        else vStr stringValue
    | _ => vStr stringValue

/-- Severity of a validation finding. -/
inductive Severity where
  | error | warning | info
deriving DecidableEq, Repr

/-- `ValidationError` of `app/page.tsx`. -/
structure ValidationError where
  id : String
  row : ℕ
  column : String
  message : String
  severity : Severity
  type : String
  suggestion : Option String := none
  autoFixable : Bool := false
  aiConfidence : Option ℚ := none
  businessImpact : Option String := none
deriving DecidableEq, Repr

/-- JavaScript `typeof v` (only reachable for truthy values here). -/
def jsTypeof : Value → String
  | vNull => "object"
  | vStr _ => "string"
  | vNum _ => "number"
  | vBool _ => "boolean"

/-- `validateColumnType` (page.tsx lines 263-305). -/
def validateColumnType (P : JsPrims) (value : Value) (column : ColumnSchema)
    (index : ℕ) (tableName : String) : Option ValidationError :=
  let errorId := tableName ++ "-" ++ toString index ++ "-" ++ column.name
  match column.type with
  | ColType.number =>
    if (P.parseFloat (jsToStr P value)).isNone then
      some { id := errorId ++ "-type", row := index, column := column.name,
             message := "Expected number for " ++ (column.businessContext.getD "numeric field")
               ++ ", got: " ++ jsTypeof value,
             severity := .error, type := "type_mismatch",
             suggestion := some "Enter a valid number",
             autoFixable := true, aiConfidence := some (9 / 10),
             businessImpact := some "medium" }
    else none
  | ColType.email =>
    if !emailTest (jsToStr P value) then
      some { id := errorId ++ "-type", row := index, column := column.name,
             message := "Invalid email format - this could impact communication workflows",
             severity := .error, type := "type_mismatch",
             suggestion := some "Enter a valid email address",
             autoFixable := false, aiConfidence := some (19 / 20),
             businessImpact := some "high" }
    else none
  | _ => none

/-- `validateRowAgainstSchema` (page.tsx lines 231-261). -/
def validateRowAgainstSchema (P : JsPrims) (row : Row) (index : ℕ)
    (tableName : String) (schema : TableSchema) : List ValidationError :=
  let errorId := tableName ++ "-" ++ toString index
  schema.columns.flatMap (fun column =>
    let value := rowGet row column.name
    let missing : List ValidationError :=
      if column.required && (!truthy value || value == vStr "") then
        [{ id := errorId ++ "-" ++ column.name ++ "-required",
           row := index, column := column.name,
           message := column.name ++ " is required for "
             ++ (schema.aiClassification.businessDomain.getD "business") ++ " operations",
           severity := .error, type := "missing_required",
           suggestion := some ("Please provide a value for " ++ column.name),
           autoFixable := (column.type == ColType.number || column.type == ColType.boolean),
           aiConfidence := some (19 / 20),
           businessImpact := some
             (if strIncludes (asciiLower column.name) "id" then "critical" else "high") }]
      else []
    let typeErr : List ValidationError :=
      if truthy value && value != vStr "" then
        match validateColumnType P value column index tableName with
        | some e => [e]
        | none => []
      else []
    missing ++ typeErr)

/-- The `unknown_reference` record pushed by `validateCrossReferences`. -/
def mkRefError (P : JsPrims) (tableName : String) (index : ℕ)
    (relationship : Relationship) (value : Value) : ValidationError :=
  { id := tableName ++ "-" ++ toString index ++ "-" ++ relationship.column ++ "-ref",
    row := index, column := relationship.column,
    message := "Broken relationship: " ++ jsToStr P value ++ " not found in "
      ++ relationship.table ++ " ("
      ++ toString (jsRound (relationship.confidence * 100)) ++ "% confidence)",
    severity := .error, type := "unknown_reference",
    suggestion := some ("Remove " ++ jsToStr P value
      ++ " or add corresponding record in " ++ relationship.table),
    autoFixable := false, aiConfidence := some relationship.confidence,
    businessImpact := some "high" }

/-- `validateCrossReferences` (page.tsx lines 307-338). -/
def validateCrossReferences (P : JsPrims) (schemas : SchemaMap) (data : DataMap) :
    List ValidationError :=
  schemas.flatMap (fun ts =>
    ts.2.relationships.flatMap (fun relationship =>
      let sourceData := dataGet data ts.1
      let targetData := dataGet data relationship.table
      let targetIds := targetData.map (fun row => rowGet row relationship.column)
      sourceData.enum.flatMap (fun ir =>
        let value := rowGet ir.2 relationship.column
        if truthy value && !targetIds.contains value then
          [mkRefError P ts.1 ir.1 relationship value]
        else [])))

/-- The `burnout_risk` record pushed by `validateAdvancedConstraints`. -/
def mkBurnoutError (tableName : String) (index : ℕ) (loadColumn : ColumnSchema)
    (load : Int) : ValidationError :=
  { id := tableName ++ "-" ++ toString index ++ "-burnout-risk",
    row := index, column := loadColumn.name,
    message := "High burnout risk detected: Load of " ++ toString load
      ++ " exceeds recommended threshold",
    severity := .warning, type := "burnout_risk",
    suggestion := some "Consider redistributing workload or adding team members",
    autoFixable := false, aiConfidence := some (17 / 20),
    businessImpact := some "high" }

/-- `validateAdvancedConstraints` (page.tsx lines 340-376). -/
def validateAdvancedConstraints (P : JsPrims) (schemas : SchemaMap) (data : DataMap) :
    List ValidationError :=
  schemas.flatMap (fun ts =>
    if ts.2.aiClassification.entityType == "workers" then
      (dataGet data ts.1).enum.flatMap (fun ir =>
        match ts.2.columns.find? (fun col =>
            strIncludes (asciiLower col.name) "load"
            || strIncludes (asciiLower col.name) "capacity") with
        | some loadColumn =>
          if truthy (rowGet ir.2 loadColumn.name) then
            match jsParseInt P (rowGet ir.2 loadColumn.name) with
            | some load =>
              if load > 8 then [mkBurnoutError ts.1 ir.1 loadColumn load]
              else []
            | none => []
          else []
        | none => [])
    else [])

/-- `validateBusinessLogic` (page.tsx lines 378-385): always empty. -/
def validateBusinessLogic : List ValidationError := []

/-- The validation-error list produced by `runValidation` (page.tsx lines
208-229): previous findings whose id starts with `tableName` are dropped and
the freshly generated batch is appended.  `data` and `schemas` are the
component-state values captured by the closure at call time. -/
def runValidationErrors (P : JsPrims) (data : DataMap) (schemas : SchemaMap)
    (prevErrors : List ValidationError) (tableName : String)
    (dataToValidate : List Row) (schema : TableSchema) : List ValidationError :=
  let errors :=
    dataToValidate.enum.flatMap (fun ir => validateRowAgainstSchema P ir.2 ir.1 tableName schema)
    ++ validateCrossReferences P schemas data
    ++ validateAdvancedConstraints P schemas data
    ++ validateBusinessLogic
  prevErrors.filter (fun e => !jsStartsWith e.id tableName) ++ errors

/-- The component state touched by the claims. -/
structure AppState where
  data : DataMap
  schemas : SchemaMap
  validationErrors : List ValidationError
deriving Repr

/-- JavaScript object spread update of one row key. -/
def rowSet (row : Row) (field : String) (v : Value) : Row :=
  if row.any (fun p => p.1 == field) then
    row.map (fun p => if p.1 == field then (p.1, v) else p)
  else row ++ [(field, v)]

/-- JavaScript object spread update of one table's rows. -/
def dataMapSet (D : DataMap) (t : String) (rows : List Row) : DataMap :=
  if D.any (fun p => p.1 == t) then
    D.map (fun p => if p.1 == t then (p.1, rows) else p)
  else D ++ [(t, rows)]

/-- `updateData` (page.tsx lines 554-570).  The re-validation step passes only
the updated row and reads `data`/`schemas` from the closure, i.e. the
pre-update state. -/
def updateData (P : JsPrims) (st : AppState) (tableName : String) (rowIndex : ℕ)
    (field : String) (value : Value) : AppState :=
  let newRows := (dataGet st.data tableName).enum.map
    (fun ir => if ir.1 = rowIndex then rowSet ir.2 field value else ir.2)
  let data' := dataMapSet st.data tableName newRows
  match schemaGet st.schemas tableName with
  | none => { st with data := data' }
  | some schema =>
    let updatedRow := rowSet ((dataGet st.data tableName).getD rowIndex []) field value
    { st with
      data := data'
      validationErrors :=
        runValidationErrors P st.data st.schemas st.validationErrors
          tableName [updatedRow] schema }

/-- `error.id.split(hyphen)[0]`. -/
def errorTable (id : String) : String :=
  String.mk (id.data.takeWhile (fun c => c ≠ '-'))

/-- The `fixedValue` computation of `applyAutoFix` (page.tsx lines 572-603);
`none` models `undefined` (no fix applied). -/
def autoFixValue (schemas : SchemaMap) (error : ValidationError) : Option Value :=
  let tableName := errorTable error.id
  if error.type == "out_of_range" then
    match (schemaGet schemas tableName).bind
        (fun s => s.columns.find? (fun col => col.name == error.column)) with
    | some columnSchema =>
      match columnSchema.validation with
      | some v =>
        match v.min with
        | some m => some (vNum m)
        | none =>
          match v.max with
          | some m => some (vNum m)
          | none => none
      | none => none
    | none => none
  else if error.type == "type_mismatch" then
    match (schemaGet schemas tableName).bind
        (fun s => s.columns.find? (fun col => col.name == error.column)) with
    | some colSchema =>
      if colSchema.type == ColType.number then some (vNum 0)
      else if colSchema.type == ColType.boolean then some (vStr "false")
      else none
    | none => none
  else if error.type == "malformed_json" then some (vStr "\x7b\x7d")
  else if error.type == "missing_required" then
    match (schemaGet schemas tableName).bind
        (fun s => s.columns.find? (fun col => col.name == error.column)) with
    | some reqSchema =>
      if reqSchema.type == ColType.number then some (vNum 1)
      else if reqSchema.type == ColType.boolean then some (vStr "false")
      else if reqSchema.type == ColType.string then some (vStr "default")
      else none
    | none => none
  else none

/-- `applyAutoFix` (page.tsx lines 572-609): when a fix value exists the
row-update path runs. -/
def applyAutoFix (P : JsPrims) (st : AppState) (error : ValidationError) : AppState :=
  match autoFixValue st.schemas error with
  | some v => updateData P st (errorTable error.id) error.row error.column v
  | none => st

/-- `s.replace(double-quote-regex, two double quotes)`. -/
def escapeQuotes (s : String) : String :=
  String.mk (s.data.flatMap (fun c => if c = '"' then ['"', '"'] else [c]))

/-- One CSV cell as serialized by `downloadCSV`
(export-controls.tsx lines 40-44): falsy cells are replaced by the empty
string, then values containing a comma are quoted with embedded quotes
doubled. -/
def serializeCell (P : JsPrims) (v : Value) : String :=
  let value := if truthy v then v else vStr ""
  let s := jsToStr P value
  if charContains s ',' then "\"" ++ escapeQuotes s ++ "\"" else s

/-- One data line of the exported CSV. -/
def csvLine (P : JsPrims) (headers : List String) (row : Row) : String :=
  joinSep ',' (headers.map (fun h => serializeCell P (rowGet row h)))

/-- The full CSV text built by `downloadCSV` (export-controls.tsx lines
33-46); `none` models the early return on empty data. -/
def downloadCSVContent (P : JsPrims) (data : List Row) : Option String :=
  match data with
  | [] => none
  | first :: _ =>
    let headers := first.map Prod.fst
    some (joinSep '\n'
      (joinSep ',' headers :: data.map (csvLine P headers)))

/-! ### Concrete environments and fixtures

Concrete `JsPrims` instances used to evaluate the embedding on specific
inputs.  Each instance agrees with a real JavaScript engine on every string
it is actually applied to in the theorems below. -/

/-- The spec's notion of a missing/empty cell: `null`/`undefined` or the
empty string (as opposed to JavaScript falsiness, which also covers the
number `0` and `false`). -/
def isMissingOrEmpty (v : Value) : Bool := v == vNull || v == vStr ""

/-- Decimal printing for integral rationals (the only numbers stringified in
the concrete fixtures), matching JavaScript `String(n)` on integers. -/
def simpleNumToString (q : ℚ) : String :=
  if q.den = 1 then toString q.num else "?"

/-- Environment in which every host parse fails.  Honest for inputs that are
neither valid JSON, dates, URLs nor numeric prefixes. -/
def P0 : JsPrims :=
  { parseFloat := fun _ => none
    numToString := simpleNumToString
    parsesAsDate := fun _ => false
    parsesAsJson := fun _ => false
    jsonParsesAsArray := fun _ => none
    isUrl := fun _ => false }

/-- Like `P0` but `JSON.parse` accepts the empty object literal. -/
def P5 : JsPrims := { P0 with parsesAsJson := fun s => s == "\x7b\x7d" }

/-- Environment for the normalizer round-trip witness: `parseFloat`
recognises exactly "0". -/
def Pw : JsPrims :=
  { parseFloat := fun s => if s = "0" then some 0 else none
    numToString := fun _ => "0"
    parsesAsDate := fun _ => false
    parsesAsJson := fun s => s == "\x7b\x7d"
    jsonParsesAsArray := fun _ => none
    isUrl := fun _ => false }

/-- True-in-JavaScript facts about the host primitives that the normalizer
round-trip relies on: `parseFloat(String(x))` recovers any previously parsed
`x` (and `String(x)` needs no trimming), likewise for the literal `0`, and
the string produced for unparsable JSON is itself valid JSON. -/
def CleanRoundtrip (P : JsPrims) : Prop :=
  (∀ s q, P.parseFloat s = some q →
    P.parseFloat (P.numToString q) = some q ∧ jsTrim (P.numToString q) = P.numToString q)
  ∧ (P.parseFloat (P.numToString 0) = some 0 ∧ jsTrim (P.numToString 0) = P.numToString 0)
  ∧ P.parsesAsJson "\x7b\x7d" = true

/-- Fixture column schema builder. -/
def mkCol (n : String) (t : ColType) (vr : Option ValidationRules) : ColumnSchema :=
  { name := n, type := t, required := true, unique := false, validation := vr,
    aiDetected := true, confidence := 1 }

/-- Fixture table schema builder. -/
def mkSchema (n : String) (cols : List ColumnSchema) (rels : List Relationship)
    (e : String) : TableSchema :=
  { name := n, columns := cols, primaryKey := none, relationships := rels,
    aiClassification := { entityType := e, confidence := 1, reasoning := "r" } }

/-- A column whose sparse id-pattern hits give every candidate type a score
below 30 while `id` still wins. -/
def c1Data : List Row :=
  [[("code", vStr "abcdefgh")], [("code", vStr "?? ?")],
   [("code", vStr "?? ?")], [("code", vStr "?? ?")]]

/-- Fix-value fixtures: a number column with configured bounds. -/
def c2Rules : ValidationRules := { min := some 5, max := some 9 }

def c2Schemas : SchemaMap :=
  [("t", mkSchema "t" [mkCol "n" ColType.number (some c2Rules)] [] "clients")]

def c2Err : ValidationError :=
  { id := "t-0-n-required", row := 0, column := "n", message := "m",
    severity := .error, type := "missing_required", autoFixable := true }

/-- Re-validation fixtures: table `u` declares a relationship whose target
`v` is not loaded, so cross-reference validation always reports `u`. -/
def c3State : AppState :=
  { data := [("t", [[("a", vStr "x")]]), ("u", [[("cid", vStr "X")]])]
    schemas :=
      [("t", mkSchema "t" [] [] "clients"),
       ("u", mkSchema "u" []
         [{ table := "v", column := "cid", relType := "many-to-one", confidence := 1 }]
         "clients")]
    validationErrors := [] }

/-- Cross-reference fixtures: source row holds the number `0`, absent from
the target column. -/
def c4Schemas : SchemaMap :=
  [("orders", mkSchema "orders" []
    [{ table := "workers", column := "wid", relType := "many-to-one", confidence := 1 }]
    "clients")]

def c4Data : DataMap :=
  [("orders", [[("wid", vNum 0)]]), ("workers", [[("wid", vNum 1)]])]

/-- A column on which the email and json scores tie at the maximum. -/
def c5Data : List Row := [[("info", vStr "a@b.c")], [("info", vStr "\x7b\x7d")]]

/-- An array-typed column and a number-typed column for the normalizer. -/
def c6ArrCol : ColumnSchema := mkCol "tags" ColType.array none

def c6NumCol : ColumnSchema := mkCol "amount" ColType.number none

/-- A one-row table whose only value is the number `0` (falsy but neither
missing nor empty). -/
def c7Data : List Row := [[("n", vNum 0)]]

/-- A workers table with two load/capacity columns; only the first is ever
inspected by the code. -/
def c8Schemas : SchemaMap :=
  [("w", mkSchema "w"
    [mkCol "LoadA" ColType.number none, mkCol "CapacityB" ColType.number none]
    [] "workers")]

def c8Data : DataMap :=
  [("w", [[("LoadA", vNum 1), ("CapacityB", vNum 12)]])]

/-! ### Helper lemmas -/

/-- The low-confidence fallback in `detectColumnSchema`
(`bestType === 'string' && confidence < 0.3 ? 'string' : bestType`) is the
identity: it can only rewrite `string` to `string`. -/
lemma guard_noop (b : ColType) (c : ℚ) :
    (if b = ColType.string ∧ c < 3 / 10 then ColType.string else b) = b := by
  by_cases h : b = ColType.string ∧ c < 3 / 10
  · rw [if_pos h, h.1]
  · rw [if_neg h]

lemma jsTrimChars_idem (l : List Char) :
    jsTrimChars (jsTrimChars l) = jsTrimChars l := by
  have hform : ∀ x : List Char,
      jsTrimChars x = List.rdropWhile wsChar (x.dropWhile wsChar) := fun _ => rfl
  rw [hform, hform]
  have h1 : List.dropWhile wsChar (List.rdropWhile wsChar (l.dropWhile wsChar)) =
      List.rdropWhile wsChar (l.dropWhile wsChar) := by
    cases hR : List.rdropWhile wsChar (l.dropWhile wsChar) with
    | nil => rfl
    | cons r R =>
      obtain ⟨t, ht⟩ := List.rdropWhile_prefix wsChar (l.dropWhile wsChar)
      rw [hR] at ht
      have hA : l.dropWhile wsChar = r :: (R ++ t) := by
        rw [← ht, List.cons_append]
      have hlen : 0 < (l.dropWhile wsChar).length := by rw [hA]; simp
      have hnot := List.dropWhile_get_zero_not (p := wsChar) l hlen
      have h0 : (l.dropWhile wsChar).get ⟨0, hlen⟩ = r := by
        have hg := List.get_of_eq hA ⟨0, hlen⟩
        simpa using hg
      rw [h0] at hnot
      have hr : wsChar r = false := by simpa using hnot
      simp [List.dropWhile_cons, hr]
  rw [h1, List.rdropWhile_idempotent]

lemma jsTrim_idem (s : String) : jsTrim (jsTrim s) = jsTrim s :=
  congrArg String.mk (jsTrimChars_idem s.data)

/-- The source reduce keeps the accumulator only on a strictly greater score,
so the returned entry is the LAST entry attaining the maximum: everything
before it scores at most as much, everything after it scores strictly less. -/
lemma foldlBest_split : ∀ (l : List (ColType × ℚ)) (a : ColType × ℚ),
    ∃ l₁ l₂, a :: l = l₁ ++ (l.foldl bestStep a) :: l₂ ∧
      (∀ x ∈ l₁, x.2 ≤ (l.foldl bestStep a).2) ∧
      (∀ x ∈ l₂, x.2 < (l.foldl bestStep a).2)
  | [], a => ⟨[], [], rfl, by simp, by simp⟩
  | b :: t, a => by
    rw [List.foldl_cons]
    by_cases hab : a.2 > b.2
    · rw [show bestStep a b = a from by simp [bestStep, hab]]
      obtain ⟨l₁, l₂, hsplit, h₁, h₂⟩ := foldlBest_split t a
      cases l₁ with
      | nil =>
        simp only [List.nil_append] at hsplit
        injection hsplit with ha ht
        refine ⟨[], b :: t, by rw [List.nil_append, ← ha], by simp, ?_⟩
        intro x hx
        rcases List.mem_cons.mp hx with hb | hx
        · rw [hb, ← ha]; exact hab
        · exact h₂ x (ht ▸ hx)
      | cons hd l₁' =>
        rw [List.cons_append] at hsplit
        injection hsplit with ha ht
        refine ⟨a :: b :: l₁', l₂, by rw [List.cons_append, List.cons_append, ← ht], ?_, h₂⟩
        intro x hx
        have hhd := h₁ hd (List.mem_cons_self _ _)
        have ha2 : a.2 = hd.2 := by rw [ha]
        rcases List.mem_cons.mp hx with hxa | hx
        · rw [hxa, ha2]; exact hhd
        rcases List.mem_cons.mp hx with hxb | hx
        · have hhd2 : a.2 ≤ (List.foldl bestStep a t).2 := by rw [ha2]; exact hhd
          rw [hxb]
          exact le_of_lt (lt_of_lt_of_le hab hhd2)
        · exact h₁ x (List.mem_cons_of_mem _ hx)
    · rw [show bestStep a b = b from by simp [bestStep, hab]]
      obtain ⟨l₁, l₂, hsplit, h₁, h₂⟩ := foldlBest_split t b
      refine ⟨a :: l₁, l₂, by rw [List.cons_append, ← hsplit], ?_, h₂⟩
      intro x hx
      rcases List.mem_cons.mp hx with hxa | hx
      · have hb : b ∈ l₁ ++ (t.foldl bestStep b) :: l₂ := hsplit ▸ List.mem_cons_self _ _
        have hb2 : b.2 ≤ (t.foldl bestStep b).2 := by
          rcases List.mem_append.mp hb with h | h
          · exact h₁ _ h
          · rcases List.mem_cons.mp h with h | h
            · exact le_of_eq (congrArg Prod.snd h)
            · exact le_of_lt (h₂ _ h)
        rw [hxa]
        exact le_trans (le_of_not_lt hab) hb2
      · exact h₁ x hx

/-- Every entry of the score-entry list carries its own type's score. -/
lemma scoreEntries_snd (t : TypeScores) : ∀ x ∈ scoreEntries t, x.2 = scoreOf t x.1 := by
  intro x hx
  simp only [scoreEntries, List.mem_cons, List.not_mem_nil, or_false] at hx
  rcases hx with rfl | rfl | rfl | rfl | rfl | rfl | rfl | rfl | rfl <;> rfl

/-! ### Claim theorems -/

/-- C1: the claim asserts that a winning confidence below 0.3 forces the
emitted type to `string`.  The code's guard
`bestType === 'string' && confidence < 0.3 ? 'string' : bestType` is a no-op
(see `guard_noop`), so on the concrete column `code` with values
`abcdefgh`, `?? ?`, `?? ?`, `?? ?` — where the best score is 7.5 (id), i.e.
confidence 0.075 < 0.3 — the emitted type is `id`, not `string`. -/
theorem c1_low_confidence_guard_noop_eval :
    (detectColumnSchema P0 "code" c1Data).confidence < 3 / 10 ∧
    (detectColumnSchema P0 "code" c1Data).type = ColType.id ∧
    ColType.id ≠ ColType.string := by
  have hts : typeScoresOf P0 "code" c1Data =
      { id := 15 / 2, number := 0, boolean := 0, date := 0, email := 0, url := 0,
        json := 0, array := 0, string := 0 } := by
    simp +decide only [typeScoresOf, columnValues, c1Data, P0, rowGet, jsToStr,
      List.countP_cons, List.countP_nil, List.filter, List.take, List.map, List.find?]
    norm_num
  refine ⟨?_, ?_, by decide⟩
  · simp only [detectColumnSchema, hts]
    norm_num [reduceBest, scoreEntries, scoreOf, bestStep]
  · simp only [detectColumnSchema, hts]
    norm_num [reduceBest, scoreEntries, scoreOf, bestStep]
    decide

/-- C9 counterexample: the cell value `false` contains no comma, yet it is
not serialized as-is (`"false"`) — the falsy-cell default turns it into the
empty field. -/
theorem c9_counterexample :
    serializeCell P0 (vBool false) = "" ∧
    jsToStr P0 (vBool false) = "false" ∧
    charContains (jsToStr P0 (vBool false)) ',' = false ∧
    serializeCell P0 (vBool false) ≠ jsToStr P0 (vBool false) := by decide

/-- C9 (amended): for truthy cell values the CSV serializer follows the
claimed rule — a value whose string form contains a comma is wrapped in
double quotes with embedded quotes doubled, any other value is emitted
as-is.  Falsy values are replaced by the empty field (claim C10). -/
theorem c9_truthy_quoting (P : JsPrims) (v : Value) (h : truthy v = true) :
    serializeCell P v =
      if charContains (jsToStr P v) ',' then "\"" ++ escapeQuotes (jsToStr P v) ++ "\""
      else jsToStr P v := by
  simp only [serializeCell, h, if_true]

/-- C9 witness: the spec's own example — `Acme, Inc.` exports as
`"Acme, Inc."`. -/
theorem c9_truthy_quoting_witness :
    truthy (vStr "Acme, Inc.") = true ∧
    serializeCell P0 (vStr "Acme, Inc.") = "\"Acme, Inc.\"" := by
  refine ⟨by decide, ?_⟩
  rw [c9_truthy_quoting P0 (vStr "Acme, Inc.") (by decide)]
  decide

/-- C10: every falsy cell value — `null`/`undefined`, the empty string, the
number `0`, the boolean `false` — is serialized as the empty CSV field, so
a legitimate `0` or `false` is indistinguishable from a missing value in
the export. -/
theorem c10_falsy_exports_empty (P : JsPrims) (v : Value)
    (h : v = vNull ∨ v = vStr "" ∨ v = vNum 0 ∨ v = vBool false) :
    serializeCell P v = "" := by
  rcases h with rfl | rfl | rfl | rfl <;> rfl

/-- C10 witness at the number `0`. -/
theorem c10_falsy_exports_empty_witness :
    ((vNum 0 : Value) = vNull ∨ (vNum 0 : Value) = vStr "" ∨
      (vNum 0 : Value) = vNum 0 ∨ (vNum 0 : Value) = vBool false) ∧
    serializeCell P0 (vNum 0) = "" :=
  ⟨Or.inr (Or.inr (Or.inl rfl)),
   c10_falsy_exports_empty P0 (vNum 0) (Or.inr (Or.inr (Or.inl rfl)))⟩

/-- C2 counterexample: a `missing_required` finding on a number column whose
schema configures `min = 5` is fixed to the constant `1`, not to the min
bound the claim prescribes. -/
theorem c2_counterexample :
    autoFixValue c2Schemas c2Err = some (vNum 1) ∧
    c2Rules.min = some 5 ∧ c2Err.type = "missing_required" ∧
    (vNum 1 : Value) ≠ vNum 5 := by decide

/-- C2 (amended): the fix value ignores the configured bounds entirely (they
feed only the separate `out_of_range` case): `missing_required` yields the
number `1` on a number column, the string `"false"` on a boolean column and
the string `"default"` on a string column; `type_mismatch` yields the number
`0` on a number column and the string `"false"` on a boolean column, and no
fix otherwise. -/
theorem c2_autofix_values (schemas : SchemaMap) (e : ValidationError)
    (col : ColumnSchema)
    (hcol : (schemaGet schemas (errorTable e.id)).bind
      (fun s => s.columns.find? (fun c => c.name == e.column)) = some col) :
    (e.type = "missing_required" →
      autoFixValue schemas e =
        (if col.type = ColType.number then some (vNum 1)
         else if col.type = ColType.boolean then some (vStr "false")
         else if col.type = ColType.string then some (vStr "default")
         else none))
    ∧ (e.type = "type_mismatch" →
      autoFixValue schemas e =
        (if col.type = ColType.number then some (vNum 0)
         else if col.type = ColType.boolean then some (vStr "false")
         else none)) := by
  constructor <;> intro ht <;>
    simp +decide [autoFixValue, ht, hcol, beq_iff_eq]

/-- C2 witness: the amended rule applied to the concrete fixtures. -/
theorem c2_autofix_values_witness :
    ((schemaGet c2Schemas (errorTable c2Err.id)).bind
      (fun s => s.columns.find? (fun c => c.name == c2Err.column)) =
      some (mkCol "n" ColType.number (some c2Rules))) ∧
    c2Err.type = "missing_required" ∧
    autoFixValue c2Schemas c2Err = some (vNum 1) := by
  refine ⟨by decide, rfl, ?_⟩
  have h := (c2_autofix_values c2Schemas c2Err (mkCol "n" ColType.number (some c2Rules))
    (by decide)).1 rfl
  simpa using h

/-- C7 counterexample: a one-row table whose single value is the number `0`.
The value is neither missing nor empty (missing fraction 0 < 0.10), yet the
code counts it as null (JavaScript falsiness) and sets `required = false`. -/
theorem c7_counterexample :
    (detectColumnSchema P0 "n" c7Data).required = false ∧
    ((c7Data.countP (fun row => isMissingOrEmpty (rowGet row "n")) : ℚ) /
      (c7Data.length : ℚ) < 1 / 10) := by
  constructor
  · simp +decide only [detectColumnSchema, c7Data, rowGet, truthy,
      List.countP_cons, List.countP_nil]
    norm_num
  · simp +decide only [c7Data, isMissingOrEmpty, rowGet, List.countP_cons,
      List.countP_nil]
    norm_num

/-- C7 (amended): the required flag is true iff the fraction of rows whose
value is falsy (missing, empty, the number 0, or `false`) is strictly below
0.10; at exactly 0.10 the flag is false. -/
theorem c7_required_iff_falsy_fraction (P : JsPrims) (columnName : String)
    (data : List Row) (h : data ≠ []) :
    (detectColumnSchema P columnName data).required = true ↔
      ((data.countP (fun row => !truthy (rowGet row columnName)) : ℚ) /
        (data.length : ℚ) < 1 / 10) := by
  have hpred : (fun row : Row =>
      !truthy (rowGet row columnName) || rowGet row columnName == vStr "") =
      (fun row : Row => !truthy (rowGet row columnName)) := by
    funext row
    cases hv : rowGet row columnName with
    | vStr s =>
      by_cases hs : s = "" <;> simp [truthy, hs]
    | vNull => simp [truthy]
    | vNum q => simp [truthy]
    | vBool b => simp [truthy]
  show decide _ = true ↔ _
  rw [decide_eq_true_iff, hpred]

/-- C7 witness: a one-row table with a present value is required. -/
theorem c7_required_iff_falsy_fraction_witness :
    (([[("col", vStr "x")]] : List Row) ≠ []) ∧
    ((detectColumnSchema P0 "col" [[("col", vStr "x")]]).required = true ↔
      (((List.countP (fun row => !truthy (rowGet row "col"))
        ([[("col", vStr "x")]] : List Row) : ℚ)) /
        ((List.length ([[("col", vStr "x")]] : List Row) : ℚ)) < 1 / 10)) :=
  ⟨by decide, c7_required_iff_falsy_fraction P0 "col" [[("col", vStr "x")]] (by decide)⟩

/-- C3 counterexample: starting from a state with no findings at all,
editing a row of table `t` produces findings that belong to table `u`
(table `u` declares a relationship whose target is missing).  A finding for
another table is added by re-validating `t`, so other tables' findings are
not "preserved unchanged" — repeated edits duplicate them. -/
theorem c3_counterexample :
    c3State.validationErrors = [] ∧
    (updateData P0 c3State "t" 0 "a" (vStr "y")).validationErrors ≠ [] ∧
    ((updateData P0 c3State "t" 0 "a" (vStr "y")).validationErrors.all
      (fun e => jsStartsWith e.id "u")) = true := by
  refine ⟨rfl, by decide, by decide⟩

/-- C3 (amended): editing row `i` of table `T` discards exactly the findings
whose id starts with `T` and appends a batch consisting of (a) schema
findings for just the edited row, re-indexed at row 0, and (b) cross-table
and advanced-constraint findings recomputed over ALL tables from the
pre-edit data — so findings of other tables are re-added (duplicated), and
`T`'s findings are a function of the single edited row, not of all of `T`'s
current rows. -/
theorem c3_update_revalidation (P : JsPrims) (st : AppState) (T : String)
    (i : ℕ) (f : String) (v : Value) (schema : TableSchema)
    (h : schemaGet st.schemas T = some schema) :
    (updateData P st T i f v).validationErrors =
      st.validationErrors.filter (fun e => !jsStartsWith e.id T)
      ++ validateRowAgainstSchema P (rowSet ((dataGet st.data T).getD i []) f v) 0 T schema
      ++ validateCrossReferences P st.schemas st.data
      ++ validateAdvancedConstraints P st.schemas st.data := by
  simp only [updateData, h, runValidationErrors, validateBusinessLogic,
    List.enum, List.enumFrom, List.flatMap_cons, List.flatMap_nil,
    List.append_nil, List.append_assoc]

/-- C3 witness: the amended description instantiated on the two-table
fixture state. -/
theorem c3_update_revalidation_witness :
    schemaGet c3State.schemas "t" = some (mkSchema "t" [] [] "clients") ∧
    (updateData P0 c3State "t" 0 "a" (vStr "y")).validationErrors =
      c3State.validationErrors.filter (fun e => !jsStartsWith e.id "t")
      ++ validateRowAgainstSchema P0
          (rowSet ((dataGet c3State.data "t").getD 0 []) "a" (vStr "y")) 0 "t"
          (mkSchema "t" [] [] "clients")
      ++ validateCrossReferences P0 c3State.schemas c3State.data
      ++ validateAdvancedConstraints P0 c3State.schemas c3State.data :=
  ⟨rfl, c3_update_revalidation P0 c3State "t" 0 "a" (vStr "y")
    (mkSchema "t" [] [] "clients") rfl⟩

/-- C5 counterexample: on the column `info` with values `a@b.c` and
`Name := "\x7b\x7d"`-style JSON text, the email and json candidates tie at the
maximal score 50, yet the emitted type is `json` — the LAST of the tied
candidates in declaration order, not the first (`email`). -/
theorem c5_counterexample :
    (detectColumnSchema P5 "info" c5Data).type = ColType.json ∧
    scoreOf (typeScoresOf P5 "info" c5Data) ColType.email =
      scoreOf (typeScoresOf P5 "info" c5Data) ColType.json ∧
    ((scoreEntries (typeScoresOf P5 "info" c5Data)).all
      (fun x => x.2 ≤ scoreOf (typeScoresOf P5 "info" c5Data) ColType.email)) = true ∧
    ColType.json ≠ ColType.email := by
  have hts : typeScoresOf P5 "info" c5Data =
      { id := 0, number := 0, boolean := 0, date := 0, email := 50, url := 0,
        json := 50, array := 0, string := 0 } := by
    simp +decide only [typeScoresOf, columnValues, c5Data, P5, P0, rowGet, jsToStr,
      List.countP_cons, List.countP_nil, List.filter, List.take, List.map, List.find?]
    norm_num
  refine ⟨?_, by rw [hts]; rfl, ?_, by decide⟩
  · simp only [detectColumnSchema, hts]
    norm_num [reduceBest, scoreEntries, scoreOf, bestStep]
  · rw [hts]
    simp only [scoreEntries, scoreOf, List.all_cons, List.all_nil]
    norm_num

/-- C5 (amended): the emitted type is the LAST candidate (in the fixed
declaration order id, number, boolean, date, email, url, json, array,
string) attaining the maximal score: the entry list splits around the
winner with earlier entries scoring at most as much and later entries
scoring strictly less. -/
theorem c5_last_max_tiebreak (P : JsPrims) (columnName : String)
    (data : List Row) (h : columnValues columnName data ≠ []) :
    ∃ l₁ l₂,
      scoreEntries (typeScoresOf P columnName data) =
        l₁ ++ ((detectColumnSchema P columnName data).type,
               scoreOf (typeScoresOf P columnName data)
                 (detectColumnSchema P columnName data).type) :: l₂ ∧
      (∀ x ∈ l₁, x.2 ≤ scoreOf (typeScoresOf P columnName data)
        (detectColumnSchema P columnName data).type) ∧
      (∀ x ∈ l₂, x.2 < scoreOf (typeScoresOf P columnName data)
        (detectColumnSchema P columnName data).type) := by
  have htype : (detectColumnSchema P columnName data).type =
      (reduceBest (scoreEntries (typeScoresOf P columnName data))).1 :=
    guard_noop _ _
  obtain ⟨l₁, l₂, hsplit, h₁, h₂⟩ :=
    foldlBest_split
      [(ColType.number, (typeScoresOf P columnName data).number),
       (ColType.boolean, (typeScoresOf P columnName data).boolean),
       (ColType.date, (typeScoresOf P columnName data).date),
       (ColType.email, (typeScoresOf P columnName data).email),
       (ColType.url, (typeScoresOf P columnName data).url),
       (ColType.json, (typeScoresOf P columnName data).json),
       (ColType.array, (typeScoresOf P columnName data).array),
       (ColType.string, (typeScoresOf P columnName data).string)]
      (ColType.id, (typeScoresOf P columnName data).id)
  have hsE : scoreEntries (typeScoresOf P columnName data) =
      (ColType.id, (typeScoresOf P columnName data).id) ::
      [(ColType.number, (typeScoresOf P columnName data).number),
       (ColType.boolean, (typeScoresOf P columnName data).boolean),
       (ColType.date, (typeScoresOf P columnName data).date),
       (ColType.email, (typeScoresOf P columnName data).email),
       (ColType.url, (typeScoresOf P columnName data).url),
       (ColType.json, (typeScoresOf P columnName data).json),
       (ColType.array, (typeScoresOf P columnName data).array),
       (ColType.string, (typeScoresOf P columnName data).string)] := rfl
  have hred : reduceBest (scoreEntries (typeScoresOf P columnName data)) =
      List.foldl bestStep (ColType.id, (typeScoresOf P columnName data).id)
      [(ColType.number, (typeScoresOf P columnName data).number),
       (ColType.boolean, (typeScoresOf P columnName data).boolean),
       (ColType.date, (typeScoresOf P columnName data).date),
       (ColType.email, (typeScoresOf P columnName data).email),
       (ColType.url, (typeScoresOf P columnName data).url),
       (ColType.json, (typeScoresOf P columnName data).json),
       (ColType.array, (typeScoresOf P columnName data).array),
       (ColType.string, (typeScoresOf P columnName data).string)] := rfl
  have hmem : reduceBest (scoreEntries (typeScoresOf P columnName data)) ∈
      scoreEntries (typeScoresOf P columnName data) := by
    rw [hred, hsE, hsplit]
    exact List.mem_append_right _ (List.mem_cons_self _ _)
  have hsnd := scoreEntries_snd _ _ hmem
  have hpair : ((detectColumnSchema P columnName data).type,
      scoreOf (typeScoresOf P columnName data)
        (detectColumnSchema P columnName data).type) =
      reduceBest (scoreEntries (typeScoresOf P columnName data)) := by
    rw [htype, ← hsnd]
  refine ⟨l₁, l₂, ?_, ?_, ?_⟩
  · rw [hpair, hred, hsE]
    exact hsplit
  · intro x hx
    have hle := h₁ x hx
    rw [htype, ← hsnd]
    rw [hred]
    exact hle
  · intro x hx
    have hlt := h₂ x hx
    rw [htype, ← hsnd]
    rw [hred]
    exact hlt

/-- C5 witness: the amended tie-break statement on a concrete one-value
column. -/
theorem c5_last_max_tiebreak_witness :
    (columnValues "x" [[("x", vStr "hello")]] ≠ []) ∧
    (∃ l₁ l₂,
      scoreEntries (typeScoresOf P0 "x" [[("x", vStr "hello")]]) =
        l₁ ++ ((detectColumnSchema P0 "x" [[("x", vStr "hello")]]).type,
               scoreOf (typeScoresOf P0 "x" [[("x", vStr "hello")]])
                 (detectColumnSchema P0 "x" [[("x", vStr "hello")]]).type) :: l₂ ∧
      (∀ x ∈ l₁, x.2 ≤ scoreOf (typeScoresOf P0 "x" [[("x", vStr "hello")]])
        (detectColumnSchema P0 "x" [[("x", vStr "hello")]]).type) ∧
      (∀ x ∈ l₂, x.2 < scoreOf (typeScoresOf P0 "x" [[("x", vStr "hello")]])
        (detectColumnSchema P0 "x" [[("x", vStr "hello")]]).type)) :=
  ⟨by decide, c5_last_max_tiebreak P0 "x" [[("x", vStr "hello")]] (by decide)⟩

/-- C4 counterexample: the source row's value `0` (a number) is neither
missing nor the empty string and is absent from the target column, yet no
`unknown_reference` finding is produced — the code tests JavaScript
truthiness, and `0` is falsy. -/
theorem c4_counterexample :
    validateCrossReferences P0 c4Schemas c4Data = [] ∧
    isMissingOrEmpty (vNum 0) = false ∧
    ((dataGet c4Data "workers").map (fun r => rowGet r "wid")).contains (vNum 0)
      = false := by decide

/-- C4 (amended): an `unknown_reference` finding (severity error, not
auto-fixable) exists for row `i` and column `c` iff some loaded table
declares a relationship on column `c` whose row `i` value is truthy (so the
number `0` and `false` are never flagged) and absent from the target
table's values for that column. -/
theorem c4_unknown_reference_iff (P : JsPrims) (S : SchemaMap) (D : DataMap)
    (i : ℕ) (c : String) :
    (∃ e ∈ validateCrossReferences P S D,
      e.row = i ∧ e.column = c ∧ e.type = "unknown_reference" ∧
      e.severity = Severity.error ∧ e.autoFixable = false)
    ↔ ∃ p ∈ S, ∃ rel ∈ p.2.relationships, rel.column = c ∧
        ∃ row, (dataGet D p.1).get? i = some row ∧
          truthy (rowGet row c) = true ∧
          ((dataGet D rel.table).map (fun r => rowGet r rel.column)).contains
            (rowGet row c) = false := by
  constructor
  · rintro ⟨e, he, hrow, hcol, -⟩
    simp only [validateCrossReferences, List.mem_flatMap] at he
    obtain ⟨p, hp, rel, hrel, ir, hir, he⟩ := he
    by_cases hcond : (truthy (rowGet ir.2 rel.column) &&
        !((dataGet D rel.table).map (fun row => rowGet row rel.column)).contains
          (rowGet ir.2 rel.column)) = true
    · rw [if_pos hcond] at he
      rw [List.mem_singleton] at he
      subst he
      rw [Bool.and_eq_true] at hcond
      obtain ⟨ht, hnc⟩ := hcond
      rw [Bool.not_eq_true'] at hnc
      have hi : ir.1 = i := hrow
      have hcc : rel.column = c := hcol
      subst hcc
      refine ⟨p, hp, rel, hrel, rfl, ir.2, ?_, ht, hnc⟩
      rw [← hi]
      exact List.mem_enum_iff_get?.mp hir
    · rw [if_neg hcond] at he
      exact absurd he (List.not_mem_nil e)
  · rintro ⟨p, hp, rel, hrel, hcolc, row, hrow, ht, hnc⟩
    subst hcolc
    refine ⟨mkRefError P p.1 i rel (rowGet row rel.column), ?_, rfl, rfl, rfl, rfl, rfl⟩
    simp only [validateCrossReferences, List.mem_flatMap]
    refine ⟨p, hp, rel, hrel, (i, row), List.mem_enum_iff_get?.mpr hrow, ?_⟩
    rw [if_pos]
    · exact List.mem_singleton_self _
    · rw [Bool.and_eq_true]
      exact ⟨ht, by rw [Bool.not_eq_true']; exact hnc⟩

/-- C8 counterexample: in a `workers` table whose schema has two
load/capacity columns, a row with `CapacityB = 12 > 8` yields NO
`burnout_risk` finding, because only the FIRST matching column (`LoadA`,
value 1) is ever inspected. -/
theorem c8_counterexample :
    validateAdvancedConstraints P0 c8Schemas c8Data = [] ∧
    strIncludes (asciiLower "CapacityB") "capacity" = true ∧
    rowGet ((dataGet c8Data "w").getD 0 []) "CapacityB" = vNum 12 ∧
    ((12 : Int) > 8) := by
  refine ⟨by decide, by decide, by decide, by norm_num⟩

/-- C8 (amended): a `burnout_risk` finding (severity warning, not
auto-fixable) exists for row `i` and column `c` iff some loaded table is
classified `workers`, the FIRST of its columns whose lower-cased name
contains "load" or "capacity" is named `c`, and row `i`'s value there is
truthy with `parseInt` of it exceeding 8. -/
theorem c8_burnout_iff (P : JsPrims) (S : SchemaMap) (D : DataMap)
    (i : ℕ) (c : String) :
    (∃ e ∈ validateAdvancedConstraints P S D,
      e.row = i ∧ e.column = c ∧ e.type = "burnout_risk" ∧
      e.severity = Severity.warning ∧ e.autoFixable = false)
    ↔ ∃ p ∈ S, p.2.aiClassification.entityType = "workers" ∧
        ∃ loadColumn, p.2.columns.find? (fun col =>
            strIncludes (asciiLower col.name) "load"
            || strIncludes (asciiLower col.name) "capacity") = some loadColumn ∧
          loadColumn.name = c ∧
          ∃ row, (dataGet D p.1).get? i = some row ∧
            truthy (rowGet row c) = true ∧
            ∃ load, jsParseInt P (rowGet row c) = some load ∧ load > 8 := by
  constructor
  · rintro ⟨e, he, hrow, hcol, -⟩
    simp only [validateAdvancedConstraints, List.mem_flatMap] at he
    obtain ⟨p, hp, he⟩ := he
    by_cases hw : (p.2.aiClassification.entityType == "workers") = true
    · rw [if_pos hw] at he
      rw [List.mem_flatMap] at he
      obtain ⟨ir, hir, he⟩ := he
      rcases hfind : p.2.columns.find? (fun col =>
          strIncludes (asciiLower col.name) "load"
          || strIncludes (asciiLower col.name) "capacity") with _ | loadColumn
      · simp only [hfind] at he
        exact absurd he (List.not_mem_nil e)
      simp only [hfind] at he
      by_cases htr : truthy (rowGet ir.2 loadColumn.name) = true
      · rw [if_pos htr] at he
        rcases hparse : jsParseInt P (rowGet ir.2 loadColumn.name) with _ | load
        · simp only [hparse] at he
          exact absurd he (List.not_mem_nil e)
        simp only [hparse] at he
        by_cases hgt : load > 8
        · rw [if_pos hgt, List.mem_singleton] at he
          subst he
          have hi : ir.1 = i := hrow
          have hcc : loadColumn.name = c := hcol
          refine ⟨p, hp, by simpa using hw, loadColumn, hfind, hcc, ir.2, ?_, ?_, load, ?_, hgt⟩
          · rw [← hi]
            exact List.mem_enum_iff_get?.mp hir
          · rw [← hcc]
            exact htr
          · rw [← hcc]
            exact hparse
        · rw [if_neg hgt] at he
          exact absurd he (List.not_mem_nil e)
      · rw [if_neg htr] at he
        exact absurd he (List.not_mem_nil e)
    · rw [if_neg hw] at he
      exact absurd he (List.not_mem_nil e)
  · rintro ⟨p, hp, hw, loadColumn, hfind, hname, row, hrow, htr, load, hparse, hgt⟩
    subst hname
    refine ⟨mkBurnoutError p.1 i loadColumn load, ?_, rfl, rfl, rfl, rfl, rfl⟩
    simp only [validateAdvancedConstraints, List.mem_flatMap]
    refine ⟨p, hp, ?_⟩
    rw [if_pos (by simpa using hw)]
    rw [List.mem_flatMap]
    refine ⟨(i, row), List.mem_enum_iff_get?.mpr hrow, ?_⟩
    simp only [hfind]
    rw [if_pos htr]
    simp only [hparse]
    rw [if_pos hgt]
    exact List.mem_singleton_self _

/-- C6 counterexample: for an array column, a value containing both a
double quote and a comma is NOT normalized idempotently: the first pass
wraps the comma-split pieces in quotes producing invalid JSON, and the
second pass re-splits that output into something new. -/
theorem c6_counterexample :
    cleanValue P0 (cleanValue P0 (vStr "a\"b, c") c6ArrCol) c6ArrCol ≠
      cleanValue P0 (vStr "a\"b, c") c6ArrCol := by decide

/-- C6 (amended): the normalizer is idempotent on every column whose type is
not `array`, for any host environment satisfying the (true in JavaScript)
round-trip facts `CleanRoundtrip`.  For array columns idempotence fails
(see the counterexample). -/
theorem c6_clean_idempotent_nonarray (P : JsPrims) (col : ColumnSchema) (v : Value)
    (hty : col.type ≠ ColType.array) (hP : CleanRoundtrip P) :
    cleanValue P (cleanValue P v col) col = cleanValue P v col := by
  obtain ⟨hparse, ⟨hz, hzt⟩, hjson⟩ := hP
  have hempty : ∀ u : Value, (u = vNull ∨ u = vStr "") → cleanValue P u col = vStr "" := by
    intro u hu
    simp only [cleanValue]
    rw [if_pos hu]
  by_cases hv : v = vNull ∨ v = vStr ""
  · rw [hempty v hv]
    exact hempty _ (Or.inr rfl)
  · generalize hw : cleanValue P v col = w
    simp only [cleanValue] at hw
    rw [if_neg hv] at hw
    cases hct : col.type with
    | array => exact absurd hct hty
    | number =>
      simp only [hct] at hw
      rcases hq : P.parseFloat (jsTrim (jsToStr P v)) with _ | q
      · simp only [hq] at hw
        cases hcr : col.required with
        | false =>
          simp [hcr] at hw
          rw [← hw]
          exact hempty _ (Or.inr rfl)
        | true =>
          simp [hcr] at hw
          rw [← hw]
          simp only [cleanValue]
          rw [if_neg (by simp)]
          simp only [hct]
          rw [show jsToStr P (vNum 0) = P.numToString 0 from rfl, hzt]
          simp only [hz]
      · simp only [hq] at hw
        obtain ⟨hpq, hptq⟩ := hparse _ _ hq
        rw [← hw]
        simp only [cleanValue]
        rw [if_neg (by simp)]
        simp only [hct]
        rw [show jsToStr P (vNum q) = P.numToString q from rfl, hptq]
        simp only [hpq]
    | boolean =>
      simp only [hct] at hw
      cases hb : (boolMapLookup (asciiLower (jsTrim (jsToStr P v)))).getD false with
      | false =>
        simp only [hb] at hw
        rw [← hw]
        simp only [cleanValue]
        rw [if_neg (by simp)]
        simp only [hct]
        rw [show jsToStr P (vBool false) = "false" from rfl]
        decide
      | true =>
        simp only [hb] at hw
        rw [← hw]
        simp only [cleanValue]
        rw [if_neg (by simp)]
        simp only [hct]
        rw [show jsToStr P (vBool true) = "true" from rfl]
        decide
    | json =>
      simp only [hct] at hw
      generalize hs0 : jsTrim (jsToStr P v) = s0 at hw
      by_cases hj : P.parsesAsJson s0 = true
      · rw [if_pos hj] at hw
        rw [← hw]
        by_cases hst : s0 = ""
        · rw [hst]
          exact hempty _ (Or.inr rfl)
        · simp only [cleanValue]
          rw [if_neg (by simp [hst])]
          simp only [hct]
          rw [show jsToStr P (vStr s0) = s0 from rfl]
          rw [show jsTrim s0 = s0 from by rw [← hs0, jsTrim_idem]]
          rw [if_pos hj]
      · rw [if_neg hj] at hw
        rw [← hw]
        simp only [cleanValue]
        rw [if_neg (by simp)]
        simp only [hct]
        rw [show jsToStr P (vStr "\x7b\x7d") = "\x7b\x7d" from rfl]
        rw [show jsTrim "\x7b\x7d" = "\x7b\x7d" from by decide]
        rw [if_pos hjson]
    | id =>
      simp only [hct] at hw
      generalize hs0 : jsTrim (jsToStr P v) = s0 at hw
      rw [← hw]
      by_cases hst : s0 = ""
      · rw [hst]
        exact hempty _ (Or.inr rfl)
      · simp only [cleanValue]
        rw [if_neg (by simp [hst])]
        simp only [hct]
        rw [show jsToStr P (vStr s0) = s0 from rfl]
        rw [show jsTrim s0 = s0 from by rw [← hs0, jsTrim_idem]]
    | date =>
      simp only [hct] at hw
      generalize hs0 : jsTrim (jsToStr P v) = s0 at hw
      rw [← hw]
      by_cases hst : s0 = ""
      · rw [hst]
        exact hempty _ (Or.inr rfl)
      · simp only [cleanValue]
        rw [if_neg (by simp [hst])]
        simp only [hct]
        rw [show jsToStr P (vStr s0) = s0 from rfl]
        rw [show jsTrim s0 = s0 from by rw [← hs0, jsTrim_idem]]
    | email =>
      simp only [hct] at hw
      generalize hs0 : jsTrim (jsToStr P v) = s0 at hw
      rw [← hw]
      by_cases hst : s0 = ""
      · rw [hst]
        exact hempty _ (Or.inr rfl)
      · simp only [cleanValue]
        rw [if_neg (by simp [hst])]
        simp only [hct]
        rw [show jsToStr P (vStr s0) = s0 from rfl]
        rw [show jsTrim s0 = s0 from by rw [← hs0, jsTrim_idem]]
    | url =>
      simp only [hct] at hw
      generalize hs0 : jsTrim (jsToStr P v) = s0 at hw
      rw [← hw]
      by_cases hst : s0 = ""
      · rw [hst]
        exact hempty _ (Or.inr rfl)
      · simp only [cleanValue]
        rw [if_neg (by simp [hst])]
        simp only [hct]
        rw [show jsToStr P (vStr s0) = s0 from rfl]
        rw [show jsTrim s0 = s0 from by rw [← hs0, jsTrim_idem]]
    | string =>
      simp only [hct] at hw
      generalize hs0 : jsTrim (jsToStr P v) = s0 at hw
      rw [← hw]
      by_cases hst : s0 = ""
      · rw [hst]
        exact hempty _ (Or.inr rfl)
      · simp only [cleanValue]
        rw [if_neg (by simp [hst])]
        simp only [hct]
        rw [show jsToStr P (vStr s0) = s0 from rfl]
        rw [show jsTrim s0 = s0 from by rw [← hs0, jsTrim_idem]]

/-- C6 witness: the amended idempotence at a concrete number column, value
and environment satisfying the round-trip facts. -/
theorem c6_clean_idempotent_nonarray_witness :
    c6NumCol.type ≠ ColType.array ∧ CleanRoundtrip Pw ∧
    cleanValue Pw (cleanValue Pw (vStr "5") c6NumCol) c6NumCol =
      cleanValue Pw (vStr "5") c6NumCol := by
  have hrt : CleanRoundtrip Pw := by
    refine ⟨?_, ⟨by decide, by decide⟩, by decide⟩
    intro s q h
    by_cases hs : s = "0"
    · subst hs
      have hq : (0 : ℚ) = q := by simpa [Pw] using h
      subst hq
      exact ⟨by decide, by decide⟩
    · have hnone : Pw.parseFloat s = none := by simp [Pw, hs]
      rw [hnone] at h
      exact absurd h (by simp)
  exact ⟨by decide, hrt,
    c6_clean_idempotent_nonarray Pw c6NumCol (vStr "5") (by decide) hrt⟩
